import Mathlib

/-!
Shallow embedding of the interaction core of a terminal chess interface
(`src/main.rs`).  The program keeps an `App` record holding a board, a
cursor square, an optional selected square and a status message, and
mutates it through `on_key`, `make_ai_move`, `get_game_status` and
`get_piece_style`.

The chess rules engine (the external `pleco` crate) is abstracted as a
`Rules` record over an arbitrary board type `B`: the core only calls
`generate_moves`, `apply_move`, `piece_at_sq`, `turn`, `checkmate`,
`stalemate` and `in_check` on it, exactly the methods the source uses.

Squares are `pleco` `SQ` values: a `u8` index, with
`file_idx_of_sq = sq mod 8` and `rank_idx_of_sq = sq / 8`.  We model the
`u8` as `Nat` with explicit `% 256` where the source does wrapping
arithmetic.
-/

/-- Side to move, mirroring `pleco::Player`. -/
inductive Player where
  | White
  | Black
deriving DecidableEq, Repr

/-- The other side, mirroring `pleco::Player::other_player`. -/
def Player.other : Player → Player
  | .White => .Black
  | .Black => .White

/-- Occupant of a square, mirroring the `pleco::Piece` enum (the
`none` constructor is `Piece::None`, the empty square). -/
inductive Piece where
  | none
  | whitePawn | whiteRook | whiteKnight | whiteBishop | whiteQueen | whiteKing
  | blackPawn | blackRook | blackKnight | blackBishop | blackQueen | blackKing
deriving DecidableEq, Repr

/-- `pleco::Piece::player`: the owning side, or `none` for an empty square. -/
def Piece.player : Piece → Option Player
  | .none => Option.none
  | .whitePawn | .whiteRook | .whiteKnight | .whiteBishop | .whiteQueen | .whiteKing =>
      some Player.White
  | .blackPawn | .blackRook | .blackKnight | .blackBishop | .blackQueen | .blackKing =>
      some Player.Black

/-- `pleco::Piece::player_lossy`: the owning side, with an arbitrary
(lossy) answer on the empty square; callers guard with a
`piece != Piece::None` test first, as `on_key` does. -/
def Piece.playerLossy : Piece → Player
  | .blackPawn | .blackRook | .blackKnight | .blackBishop | .blackQueen | .blackKing =>
      Player.Black
  | _ => Player.White

/-- A move as the core sees it: source and destination square indices
plus extra data (promotion / special-move bits of the `pleco`
`BitMove`), used only so that distinct moves with equal source and
destination stay distinct. -/
structure Move where
  src : Nat
  dest : Nat
  flags : Nat
deriving DecidableEq, Repr

/-- File letter of a square index, for the uci rendering of a move. -/
def fileStr : Nat → String
  | 0 => "a" | 1 => "b" | 2 => "c" | 3 => "d" | 4 => "e" | 5 => "f" | 6 => "g" | _ => "h"

/-- Rank digit of a square index, for the uci rendering of a move. -/
def rankStr : Nat → String
  | 0 => "1" | 1 => "2" | 2 => "3" | 3 => "4" | 4 => "5" | 5 => "6" | 6 => "7" | _ => "8"

/-- Uci name of a square (file letter then rank digit), as in the
`Display` of `pleco::BitMove`. -/
def squareUci (s : Nat) : String := fileStr (s % 8) ++ rankStr (s / 8)

/-- Rendering of a move as the source prints it via `format!` on the
`pleco::BitMove` (source square then destination square; the promotion
suffix of the engine is not modelled, no claim depends on the text). -/
def moveString (m : Move) : String := squareUci m.src ++ squareUci m.dest

/-- The rules-engine interface the core consumes, over an abstract board
type `B`: exactly the `pleco::Board` methods called by `src/main.rs`. -/
structure Rules (B : Type) where
  generate_moves : B → List Move
  apply_move : B → Move → B
  piece_at_sq : B → Nat → Piece
  turn : B → Player
  checkmate : B → Bool
  stalemate : B → Bool
  in_check : B → Bool

/-- Decoded key events, mirroring the `crossterm::KeyCode` cases the
program distinguishes (`Char` and `Other` both fall into the
`_ => {}` arm of `on_key`). -/
inductive KeyCode where
  | Left
  | Right
  | Up
  | Down
  | Enter
  | Esc
  | Char (c : Char)
  | Other
deriving DecidableEq, Repr

/-- The `App` struct of `src/main.rs`: the rules-engine board, the
cursor square (a `u8` square index), the optional selected square, and
the transient status message. -/
structure App (B : Type) where
  board : B
  cursor_pos : Nat
  selected_pos : Option Nat
  message : String

/-- The random index drawn by `make_ai_move` is abstracted as an
arbitrary natural `i`; the move actually applied is
`moves[i % moves.len()]`, which ranges over exactly the elements of the
nonempty legal-move list as `i` ranges over `Nat`. -/
def aiChosen {B : Type} (r : Rules B) (b : B) (i : Nat) : Move :=
  (r.generate_moves b).getD (i % (r.generate_moves b).length) ⟨0, 0, 0⟩

/-- `App::make_ai_move` (lines 35-45): fetch the legal moves of the side
to move; if nonempty apply a randomly drawn one and report it, otherwise
report "No legal moves available" and mutate nothing. -/
def make_ai_move {B : Type} (r : Rules B) (app : App B) (i : Nat) : App B :=
  let moves := r.generate_moves app.board
  if !moves.isEmpty then
    let chosen_move := aiChosen r app.board i
    { app with board := r.apply_move app.board chosen_move,
               message := "AI moved: " ++ moveString chosen_move }
  else
    { app with message := "No legal moves available" }

/-- `App::on_key` (lines 47-100).  Directional keys move the cursor with
`pleco` wrapping `u8` arithmetic, guarded by the file/rank index tests
of the source.  `Enter` either resolves a pending selection against the
legal-move list (applying the first match and, when the resulting
position is neither checkmate nor stalemate, immediately making the
opposing move) or arms a selection on an own piece.  `Esc` clears the
selection.  The extra argument `i` stands for the random draw consumed
by `make_ai_move` on the move-applied path. -/
def on_key {B : Type} (r : Rules B) (app : App B) (key : KeyCode) (i : Nat) : App B :=
  match key with
  | .Left =>
      if app.cursor_pos % 8 > 0 then
        { app with cursor_pos := (app.cursor_pos + 255) % 256 }
      else app
  | .Right =>
      if app.cursor_pos % 8 < 7 then
        { app with cursor_pos := (app.cursor_pos + 1) % 256 }
      else app
  | .Up =>
      if app.cursor_pos / 8 < 7 then
        { app with cursor_pos := (app.cursor_pos + 8) % 256 }
      else app
  | .Down =>
      if app.cursor_pos / 8 > 0 then
        { app with cursor_pos := (app.cursor_pos + 248) % 256 }
      else app
  | .Enter =>
      match app.selected_pos with
      | some selected =>
          let legal_moves := r.generate_moves app.board
          match legal_moves.find? (fun mv => mv.src == selected && mv.dest == app.cursor_pos) with
          | some mv =>
              let app1 : App B :=
                { app with board := r.apply_move app.board mv,
                           selected_pos := Option.none,
                           message := "Moved: " ++ moveString mv }
              let app2 : App B :=
                if !(r.checkmate app1.board) && !(r.stalemate app1.board) then
                  make_ai_move r app1 i
                else app1
              { app2 with selected_pos := Option.none }
          | Option.none =>
              { app with message := "Invalid move!", selected_pos := Option.none }
      | Option.none =>
          let piece := r.piece_at_sq app.board app.cursor_pos
          if piece ≠ Piece.none ∧ piece.playerLossy = r.turn app.board then
            { app with selected_pos := some app.cursor_pos, message := "Piece selected" }
          else app
  | .Esc =>
      { app with selected_pos := Option.none, message := "Selection cleared" }
  | _ => app

/-- Display name of a side, as the string literals of
`App::get_game_status` render it. -/
def sideName : Player → String
  | .White => "White"
  | .Black => "Black"

/-- `App::get_game_status` (lines 149-159): derive the game-status line
from the terminal-state queries, in priority order checkmate /
stalemate / check / normal turn.  A pure function of the state: it
returns a string and mutates nothing. -/
def get_game_status {B : Type} (r : Rules B) (app : App B) : String :=
  if r.checkmate app.board then
    "Checkmate! " ++ (if r.turn app.board = Player.White then "Black" else "White") ++ " wins!"
  else if r.stalemate app.board then
    "Stalemate!"
  else if r.in_check app.board then
    (if r.turn app.board = Player.White then "White" else "Black") ++ " is in check!"
  else
    (if r.turn app.board = Player.White then "White" else "Black") ++ "\x27s turn"

/-- Terminal colors used by the styling code, mirroring the
`ratatui::style::Color` constructors the source mentions. -/
inductive Color where
  | Yellow
  | Rgb (r g b : Nat)
  | White
  | Black
  | Red
  | Green
deriving DecidableEq, Repr

/-- A `ratatui` style as the source builds it: optional background and
foreground colors and the BOLD modifier flag. -/
structure Style where
  bg : Option Color := Option.none
  fg : Option Color := Option.none
  bold : Bool := false
deriving DecidableEq, Repr

/-- `App::get_piece_style` (lines 121-147): background from selection /
cursor / square-color precedence, foreground from the piece owner, BOLD
when selected or under the cursor. -/
def get_piece_style (piece : Piece) (is_dark_square is_selected is_cursor : Bool) : Style :=
  let style : Style := {}
  let style :=
    if is_selected then { style with bg := some Color.Yellow }
    else if is_cursor then { style with bg := some (Color.Rgb 150 150 150) }
    else if is_dark_square then { style with bg := some (Color.Rgb 86 86 86) }
    else { style with bg := some (Color.Rgb 200 200 200) }
  let style :=
    match piece.player with
    | some Player.White => { style with fg := some Color.White }
    | some Player.Black => { style with fg := some Color.Black }
    | Option.none => style
  if is_selected || is_cursor then { style with bold := true } else style

/-- The per-square style computation of the render closure in `run_app`
(lines 197-207): for the square `rank * 8 + file`, derive the selected /
cursor / dark-square flags from the interaction state and style the
occupant. -/
def renderSquareStyle {B : Type} (r : Rules B) (app : App B) (rank file : Nat) : Style :=
  let sq := rank * 8 + file
  let is_selected := (app.selected_pos.map (fun sel => sel == sq)).getD false
  let is_cursor := app.cursor_pos == sq
  let is_dark_square := (rank + file) % 2 == 1
  get_piece_style (r.piece_at_sq app.board sq) is_dark_square is_selected is_cursor

/-- Processing a whole key sequence: left fold of `on_key` over the
events (the random draw is irrelevant for directional keys and is fixed
at `0`). -/
def processKeys {B : Type} (r : Rules B) (app : App B) (ks : List KeyCode) : App B :=
  ks.foldl (fun a k => on_key r a k 0) app

/-- The four directional keys. -/
def isDirectional : KeyCode → Bool
  | .Left | .Right | .Up | .Down => true
  | _ => false

/-- A directional step that would push the cursor off the 8x8 board:
left at file 0, right at file 7, up at rank 7, down at rank 0. -/
def wouldLeave (k : KeyCode) (c : Nat) : Bool :=
  match k with
  | .Left => c % 8 == 0
  | .Right => c % 8 == 7
  | .Up => c / 8 == 7
  | .Down => c / 8 == 0
  | _ => false

/-!
A small concrete instance of the rules interface, used to evaluate the
theorems on explicit inputs.  Board states are numbered `0, 1, 2, ...`
(`apply_move` advances the number, so the side to move is the parity);
position `0` has a white pawn on square 8 and a black pawn on square 48
and three legal moves, two of which share source 8 and destination 16
(a promotion-style ambiguity); position `1` has exactly one legal move;
later positions have none.
-/

/-- Moves offered by the toy engine in position 0. -/
def toyMoves0 : List Move := [⟨8, 16, 0⟩, ⟨8, 16, 1⟩, ⟨9, 17, 0⟩]

/-- A concrete `Rules` instance over `Nat` board states. -/
def toyRules : Rules Nat where
  generate_moves := fun b => if b = 0 then toyMoves0 else if b = 1 then [⟨48, 40, 0⟩] else []
  apply_move := fun b _ => b + 1
  piece_at_sq := fun b sq =>
    if b = 0 ∧ sq = 8 then Piece.whitePawn
    else if b = 0 ∧ sq = 48 then Piece.blackPawn
    else Piece.none
  turn := fun b => if b % 2 = 0 then Player.White else Player.Black
  checkmate := fun _ => false
  stalemate := fun _ => false
  in_check := fun _ => false

/-- The toy engine toggles the side to move on every move application. -/
theorem toyRules_toggles (b : Nat) (m : Move) :
    toyRules.turn (toyRules.apply_move b m) = (toyRules.turn b).other := by
  simp only [toyRules]
  rcases Nat.mod_two_eq_zero_or_one b with h | h <;>
    simp [Player.other, Nat.add_mod, h]

/-- One directional key keeps the cursor in the 64-square range. -/
theorem dirStep_bound {B : Type} (r : Rules B) (app : App B) (k : KeyCode) (i : Nat)
    (hk : isDirectional k = true) (hc : app.cursor_pos ≤ 63) :
    (on_key r app k i).cursor_pos ≤ 63 := by
  cases k <;> simp only [isDirectional] at hk <;>
    first
      | (simp only [on_key]; split <;> (try simp) <;> omega)
      | simp at hk

/-- Folding any directional key sequence keeps the cursor in range. -/
theorem processKeys_bound {B : Type} (r : Rules B) (ks : List KeyCode) :
    ∀ app : App B, (∀ k ∈ ks, isDirectional k = true) → app.cursor_pos ≤ 63 →
      (processKeys r app ks).cursor_pos ≤ 63 := by
  induction ks with
  | nil => intro app _ hc; exact hc
  | cons k ks ih =>
      intro app hks hc
      exact ih (on_key r app k 0)
        (fun k' hk' => hks k' (List.mem_cons_of_mem k hk'))
        (dirStep_bound r app k 0 (hks k (List.mem_cons_self k ks)) hc)

/-- C1: from any cursor square with file and rank indices in [0,7],
every finite sequence of directional key events processed by `on_key`
leaves the cursor with file and rank indices in [0,7]; and a single
directional event that would leave this range leaves the cursor
unchanged (no wraparound). -/
theorem cursor_stays_on_board {B : Type} (r : Rules B) (app : App B) (ks : List KeyCode)
    (hks : ∀ k ∈ ks, isDirectional k = true)
    (hrank : app.cursor_pos / 8 ≤ 7) :
    ((processKeys r app ks).cursor_pos % 8 ≤ 7 ∧ (processKeys r app ks).cursor_pos / 8 ≤ 7)
    ∧ ∀ k, isDirectional k = true → wouldLeave k app.cursor_pos = true →
        (on_key r app k 0).cursor_pos = app.cursor_pos := by
  have hc : app.cursor_pos ≤ 63 := by omega
  constructor
  · have h := processKeys_bound r ks app hks hc
    omega
  · intro k hk hedge
    cases k <;> simp only [isDirectional] at hk <;>
      first
        | (simp only [wouldLeave, beq_iff_eq] at hedge;
           simp only [on_key]; split <;> (try simp) <;> omega)
        | simp at hk

/-- Sample interaction state over the toy engine: position 0, cursor on
square 0, nothing selected. -/
def appW1 : App Nat := ⟨0, 0, Option.none, ""⟩

/-- Witness for C1 at a concrete key sequence. -/
theorem cursor_stays_on_board_witness :
    (processKeys toyRules appW1 [KeyCode.Up, KeyCode.Right, KeyCode.Left, KeyCode.Down]).cursor_pos / 8 ≤ 7 :=
  (cursor_stays_on_board toyRules appW1 [KeyCode.Up, KeyCode.Right, KeyCode.Left, KeyCode.Down]
    (by decide) (by decide)).1.2

/-- C2 counterexample: with no selection and the cursor on an own piece
(toy position 0, square 8 holds a white pawn, White to move), `Enter`
arms a selection instead of leaving the selection field `none`, so an
Enter event does not unconditionally clear the selection. -/
theorem enter_in_idle_sets_selection :
    (on_key toyRules ⟨0, 8, Option.none, ""⟩ KeyCode.Enter 0).selected_pos ≠ Option.none := by
  decide

/-- C2 (amended): an Escape event always leaves the selection `none`,
and an Enter event processed while a selection is present leaves the
selection `none` regardless of outcome; an Enter event with no
selection pending may instead arm a selection. -/
theorem enter_or_esc_clears_selection {B : Type} (r : Rules B) (app : App B) (key : KeyCode)
    (i : Nat)
    (h : key = KeyCode.Esc ∨ (key = KeyCode.Enter ∧ app.selected_pos.isSome)) :
    (on_key r app key i).selected_pos = Option.none := by
  rcases h with h | ⟨h, hs⟩
  · subst h; rfl
  · subst h
    rcases hsel : app.selected_pos with _ | s
    · rw [hsel] at hs; simp at hs
    · simp only [on_key, hsel]
      split <;> rfl

/-- Witness for the amended C2 at a concrete Armed state. -/
theorem enter_or_esc_clears_selection_witness :
    (on_key toyRules ⟨0, 8, some 8, ""⟩ KeyCode.Esc 0).selected_pos = Option.none :=
  enter_or_esc_clears_selection toyRules ⟨0, 8, some 8, ""⟩ KeyCode.Esc 0 (Or.inl rfl)

/-- C3: with a selection pending, if no legal move of the current
position has the selected square as source and the cursor as
destination, Enter sets the status to "Invalid move!", clears the
selection, and leaves the board unchanged. -/
theorem enter_invalid_move {B : Type} (r : Rules B) (app : App B) (s i : Nat)
    (hsel : app.selected_pos = some s)
    (hfind : (r.generate_moves app.board).find?
        (fun mv => mv.src == s && mv.dest == app.cursor_pos) = Option.none) :
    (on_key r app KeyCode.Enter i).message = "Invalid move!" ∧
    (on_key r app KeyCode.Enter i).selected_pos = Option.none ∧
    (on_key r app KeyCode.Enter i).board = app.board := by
  simp [on_key, hsel, hfind]

/-- Witness for C3: toy position 0 with square 9 selected and the cursor
on square 20, which no legal move reaches from square 9. -/
theorem enter_invalid_move_witness :
    (on_key toyRules ⟨0, 20, some 9, ""⟩ KeyCode.Enter 0).message = "Invalid move!" ∧
    (on_key toyRules ⟨0, 20, some 9, ""⟩ KeyCode.Enter 0).selected_pos = Option.none ∧
    (on_key toyRules ⟨0, 20, some 9, ""⟩ KeyCode.Enter 0).board = (0 : Nat) :=
  enter_invalid_move toyRules ⟨0, 20, some 9, ""⟩ 9 0 rfl (by decide)

/-- Toggling the side to move twice is the identity. -/
theorem Player.other_other (p : Player) : p.other.other = p := by
  cases p <;> rfl

/-- C4: with a selection pending, when Enter finds and applies a legal
move from the selected square to the cursor and the resulting position
is neither checkmate nor stalemate, the opposing move is made
immediately within the same transition (the rules engine toggles the
side to move on every application): if the opponent has at least one
legal move the final board is the human move followed by the drawn
opponent move and the side to move is back to the side that moved; if
the opponent has none, only the human ply is applied and the side to
move is toggled. -/
theorem enter_move_then_ai {B : Type} (r : Rules B) (app : App B) (s i : Nat) (mv : Move)
    (hTog : ∀ b m, r.turn (r.apply_move b m) = (r.turn b).other)
    (hsel : app.selected_pos = some s)
    (hfind : (r.generate_moves app.board).find?
        (fun m => m.src == s && m.dest == app.cursor_pos) = some mv)
    (hcm : r.checkmate (r.apply_move app.board mv) = false)
    (hst : r.stalemate (r.apply_move app.board mv) = false) :
    ((r.generate_moves (r.apply_move app.board mv)).isEmpty = false →
      (on_key r app KeyCode.Enter i).board
        = r.apply_move (r.apply_move app.board mv) (aiChosen r (r.apply_move app.board mv) i) ∧
      r.turn (on_key r app KeyCode.Enter i).board = r.turn app.board)
    ∧ ((r.generate_moves (r.apply_move app.board mv)).isEmpty = true →
      (on_key r app KeyCode.Enter i).board = r.apply_move app.board mv ∧
      r.turn (on_key r app KeyCode.Enter i).board = (r.turn app.board).other) := by
  constructor
  · intro hne
    simp only [on_key, hsel, hfind]
    simp [make_ai_move, hcm, hst, hne, hTog, Player.other_other]
  · intro hemp
    simp only [on_key, hsel, hfind]
    simp [make_ai_move, hcm, hst, hemp, hTog]

/-- Witness for C4: in toy position 0 with square 8 selected and the
cursor on square 16, Enter applies the human move and the opponent
reply, ending two plies on with White to move again. -/
theorem enter_move_then_ai_witness :
    (on_key toyRules ⟨0, 16, some 8, ""⟩ KeyCode.Enter 0).board = (2 : Nat) ∧
    toyRules.turn (on_key toyRules ⟨0, 16, some 8, ""⟩ KeyCode.Enter 0).board
      = toyRules.turn (0 : Nat) := by
  have h := (enter_move_then_ai toyRules ⟨0, 16, some 8, ""⟩ 8 0 ⟨8, 16, 0⟩
    toyRules_toggles rfl (by decide) rfl rfl).1 (by decide)
  exact ⟨h.1.trans (by decide), h.2⟩

/-- C5: `get_game_status` follows the priority order checkmate, then
stalemate, then check, then normal turn; the checkmate winner is the
side not to move.  The function is pure: it only reads the terminal
queries and returns a string. -/
theorem game_status_priority {B : Type} (r : Rules B) (app : App B) :
    (r.checkmate app.board = true →
      get_game_status r app = "Checkmate! " ++ sideName (r.turn app.board).other ++ " wins!")
    ∧ (r.checkmate app.board = false → r.stalemate app.board = true →
      get_game_status r app = "Stalemate!")
    ∧ (r.checkmate app.board = false → r.stalemate app.board = false →
        r.in_check app.board = true →
      get_game_status r app = sideName (r.turn app.board) ++ " is in check!")
    ∧ (r.checkmate app.board = false → r.stalemate app.board = false →
        r.in_check app.board = false →
      get_game_status r app = sideName (r.turn app.board) ++ "\x27s turn") := by
  refine ⟨?_, ?_, ?_, ?_⟩ <;> intros <;>
    cases h : r.turn app.board <;>
      simp_all [get_game_status, sideName, Player.other]

/-- Witness for C5 on the toy starting position (no checkmate,
stalemate or check, White to move). -/
theorem game_status_priority_witness :
    get_game_status toyRules ⟨0, 0, Option.none, ""⟩
      = sideName (toyRules.turn (0 : Nat)) ++ "\x27s turn" :=
  (game_status_priority toyRules ⟨0, 0, Option.none, ""⟩).2.2.2 rfl rfl rfl

/-- C6: from an Idle state whose cursor sits on an own piece, Enter arms
the selection without touching the board, and a following Escape clears
the selection, leaves the board exactly as before the selection, and
sets the status to "Selection cleared". -/
theorem select_then_escape_roundtrip {B : Type} (r : Rules B) (app : App B) (i j : Nat)
    (hidle : app.selected_pos = Option.none)
    (hpiece : r.piece_at_sq app.board app.cursor_pos ≠ Piece.none)
    (hown : (r.piece_at_sq app.board app.cursor_pos).playerLossy = r.turn app.board) :
    (on_key r app KeyCode.Enter i).selected_pos = some app.cursor_pos
    ∧ (on_key r app KeyCode.Enter i).board = app.board
    ∧ (on_key r (on_key r app KeyCode.Enter i) KeyCode.Esc j).selected_pos = Option.none
    ∧ (on_key r (on_key r app KeyCode.Enter i) KeyCode.Esc j).board = app.board
    ∧ (on_key r (on_key r app KeyCode.Enter i) KeyCode.Esc j).message = "Selection cleared" := by
  have hsel : on_key r app KeyCode.Enter i
      = { app with selected_pos := some app.cursor_pos, message := "Piece selected" } := by
    simp [on_key, hidle, hpiece, hown]
  rw [hsel]
  simp [on_key]

/-- Witness for C6: toy position 0 with the cursor on the white pawn at
square 8 and White to move. -/
theorem select_then_escape_roundtrip_witness :
    (on_key toyRules ⟨0, 8, Option.none, ""⟩ KeyCode.Enter 0).selected_pos = some 8
    ∧ (on_key toyRules ⟨0, 8, Option.none, ""⟩ KeyCode.Enter 0).board = (0 : Nat)
    ∧ (on_key toyRules (on_key toyRules ⟨0, 8, Option.none, ""⟩ KeyCode.Enter 0)
        KeyCode.Esc 0).selected_pos = Option.none
    ∧ (on_key toyRules (on_key toyRules ⟨0, 8, Option.none, ""⟩ KeyCode.Enter 0)
        KeyCode.Esc 0).board = (0 : Nat)
    ∧ (on_key toyRules (on_key toyRules ⟨0, 8, Option.none, ""⟩ KeyCode.Enter 0)
        KeyCode.Esc 0).message = "Selection cleared" :=
  select_then_escape_roundtrip toyRules ⟨0, 8, Option.none, ""⟩ 0 0 rfl (by decide) (by decide)

/-- C7: with no selection pending, Enter on an empty square or on a
piece of the side not to move changes nothing at all: the whole state,
board, cursor, selection and message, is returned unchanged (so the
side to move is unchanged too). -/
theorem enter_idle_noop {B : Type} (r : Rules B) (app : App B) (i : Nat)
    (hidle : app.selected_pos = Option.none)
    (h : r.piece_at_sq app.board app.cursor_pos = Piece.none ∨
        (r.piece_at_sq app.board app.cursor_pos).playerLossy ≠ r.turn app.board) :
    on_key r app KeyCode.Enter i = app := by
  simp only [on_key, hidle]
  rw [if_neg]
  rintro ⟨hne, hlossy⟩
  rcases h with h | h
  · exact hne h
  · exact h hlossy

/-- Witness for C7: toy position 0 with the cursor on the black pawn at
square 48 while White is to move. -/
theorem enter_idle_noop_witness :
    on_key toyRules ⟨0, 48, Option.none, ""⟩ KeyCode.Enter 0
      = ({ board := 0, cursor_pos := 48, selected_pos := Option.none, message := "" } : App Nat) :=
  enter_idle_noop toyRules ⟨0, 48, Option.none, ""⟩ 0 rfl (Or.inr (by decide))

/-- The drawn opponent move is an element of the legal-move list
whenever that list is nonempty. -/
theorem aiChosen_mem {B : Type} (r : Rules B) (b : B) (i : Nat)
    (h : (r.generate_moves b).isEmpty = false) :
    aiChosen r b i ∈ r.generate_moves b := by
  have hl : 0 < (r.generate_moves b).length := by
    cases hg : r.generate_moves b <;> simp_all
  have hlt : i % (r.generate_moves b).length < (r.generate_moves b).length :=
    Nat.mod_lt _ hl
  rw [aiChosen, List.getD_eq_getElem _ _ hlt]
  exact List.getElem_mem hlt

/-- C8: when the opponent-move selector runs on a position with no
legal moves, it only sets the status to "No legal moves available" and
mutates nothing; otherwise it applies one move drawn from the
legal-move list and reports it. -/
theorem make_ai_move_empty_or_applies {B : Type} (r : Rules B) (app : App B) (i : Nat) :
    ((r.generate_moves app.board).isEmpty = true →
      make_ai_move r app i = { app with message := "No legal moves available" })
    ∧ ((r.generate_moves app.board).isEmpty = false →
      (make_ai_move r app i).board = r.apply_move app.board (aiChosen r app.board i)
      ∧ aiChosen r app.board i ∈ r.generate_moves app.board
      ∧ (make_ai_move r app i).message = "AI moved: " ++ moveString (aiChosen r app.board i)) := by
  constructor
  · intro hemp
    simp [make_ai_move, hemp]
  · intro hne
    refine ⟨?_, aiChosen_mem r app.board i hne, ?_⟩ <;> simp [make_ai_move, hne]

/-- Witness for C8 in both toy regimes: position 5 has no legal moves
and is left unchanged with the guard message; position 0 has legal
moves and one of them is applied. -/
theorem make_ai_move_empty_or_applies_witness :
    make_ai_move toyRules ⟨5, 0, Option.none, ""⟩ 0
      = ({ board := 5, cursor_pos := 0, selected_pos := Option.none,
           message := "No legal moves available" } : App Nat)
    ∧ (make_ai_move toyRules ⟨0, 0, Option.none, ""⟩ 0).board
        = toyRules.apply_move 0 (aiChosen toyRules 0 0)
    ∧ aiChosen toyRules 0 0 ∈ toyRules.generate_moves 0 :=
  ⟨(make_ai_move_empty_or_applies toyRules ⟨5, 0, Option.none, ""⟩ 0).1 rfl,
   ((make_ai_move_empty_or_applies toyRules ⟨0, 0, Option.none, ""⟩ 0).2 rfl).1,
   ((make_ai_move_empty_or_applies toyRules ⟨0, 0, Option.none, ""⟩ 0).2 rfl).2.1⟩

/-- `find?` returns the head of the filtered list: the first element
satisfying the predicate, in list order. -/
theorem find?_eq_head_of_filter {α : Type} (p : α → Bool) (l : List α) (a : α) (t : List α)
    (h : l.filter p = a :: t) : l.find? p = some a := by
  induction l with
  | nil => simp at h
  | cons b l ih =>
      cases hb : p b
      · rw [List.filter_cons_of_neg (by simp [hb])] at h
        rw [List.find?_cons_of_neg _ (by simp [hb])]
        exact ih h
      · rw [List.filter_cons_of_pos (by simp [hb])] at h
        injection h with h1 _
        rw [List.find?_cons_of_pos _ hb, h1]

/-- C9: when several legal moves share the selected square as source and
the cursor as destination (promotion choices), Enter deterministically
resolves to the first such match in the enumeration order of the
legal-move list: the state transition is exactly the found-move branch
instantiated with that first match. -/
theorem enter_applies_first_match {B : Type} (r : Rules B) (app : App B) (s i : Nat)
    (mv1 mv2 : Move) (rest : List Move)
    (hsel : app.selected_pos = some s)
    (hfilter : (r.generate_moves app.board).filter
        (fun mv => mv.src == s && mv.dest == app.cursor_pos) = mv1 :: mv2 :: rest) :
    on_key r app KeyCode.Enter i =
      (let app1 : App B :=
        { app with board := r.apply_move app.board mv1,
                   selected_pos := Option.none,
                   message := "Moved: " ++ moveString mv1 }
       let app2 : App B :=
        if !(r.checkmate app1.board) && !(r.stalemate app1.board) then
          make_ai_move r app1 i
        else app1
       { app2 with selected_pos := Option.none }) := by
  have hfind := find?_eq_head_of_filter
    (fun mv => mv.src == s && mv.dest == app.cursor_pos)
    (r.generate_moves app.board) mv1 (mv2 :: rest) hfilter
  simp only [on_key, hsel, hfind]

/-- Witness for C9: in toy position 0 two legal moves go from square 8
to square 16; Enter applies the first of them (flags 0), after which the
opponent reply from position 1 is applied. -/
theorem enter_applies_first_match_witness :
    on_key toyRules ⟨0, 16, some 8, ""⟩ KeyCode.Enter 0
      = ({ board := 2, cursor_pos := 16, selected_pos := Option.none,
           message := "AI moved: " ++ moveString ⟨48, 40, 0⟩ } : App Nat) :=
  (enter_applies_first_match toyRules ⟨0, 16, some 8, ""⟩ 8 0
    ⟨8, 16, 0⟩ ⟨8, 16, 1⟩ [] rfl (by decide)).trans rfl

/-- C10: in the per-square projection of the render loop, a square that
is both the selected square and the cursor square is styled as selected:
the style equals `get_piece_style` with the selected flag set, and its
background is yellow, not the cursor grey. -/
theorem selected_overrides_cursor {B : Type} (r : Rules B) (app : App B) (rank file : Nat)
    (hsel : app.selected_pos = some (rank * 8 + file))
    (hcur : app.cursor_pos = rank * 8 + file) :
    renderSquareStyle r app rank file
      = get_piece_style (r.piece_at_sq app.board (rank * 8 + file))
          ((rank + file) % 2 == 1) true true
    ∧ (renderSquareStyle r app rank file).bg = some Color.Yellow := by
  have h1 : renderSquareStyle r app rank file
      = get_piece_style (r.piece_at_sq app.board (rank * 8 + file))
          ((rank + file) % 2 == 1) true true := by
    simp [renderSquareStyle, hsel, hcur]
  refine ⟨h1, ?_⟩
  rw [h1]
  rcases hp : (r.piece_at_sq app.board (rank * 8 + file)).player with _ | pl
  · simp [get_piece_style, hp]
  · cases pl <;> simp [get_piece_style, hp]

/-- Witness for C10: toy position 0 with square 8 (rank 1, file 0) both
selected and under the cursor gets the yellow selected background. -/
theorem selected_overrides_cursor_witness :
    (renderSquareStyle toyRules ⟨0, 8, some 8, ""⟩ 1 0).bg = some Color.Yellow :=
  (selected_overrides_cursor toyRules ⟨0, 8, some 8, ""⟩ 1 0 rfl rfl).2
